import Mathlib

/-!
Verification of the picture-tool repository (src/picture_tool/main module).

The development shallowly embeds the pure/deterministic core of the tool:

* Python string helpers used by the tool (strip, split, join, substring
  containment), modelled character-by-character with executable functions;
* the file-placement routine smart_move (content-hash based dedup and the
  numeric-suffix collision policy), over an association-list file system whose
  file contents are abstracted as natural numbers and whose hash function is an
  arbitrary parameter;
* the author-mapping store (get_or_prompt_username_mapping and its write-through
  persistence), with explicit counters for prompts and file writes;
* the link classifier of the download command, including faithful translations
  of its two URL regular expressions;
* the selection step and the destination-folder choice of the download command;
* the per-link loop of the download command as a function in the Except monad
  (a raised subprocess exception is Except.error), parameterised by the external
  collaborators (gallery-dl, wget, exiftool, interactive prompts);
* the per-folder target choice and the per-file move loop of the move command.

External processes and libraries (gallery-dl, wget, exiftool, jsonpath, pykakasi
romanisation, interactive prompts) are modelled as supplied functions, which is
exactly their role in the source: opaque collaborators invoked for values or
effects.  The while loop of smart_move is embedded with an explicit fuel
parameter; running out of fuel yields none, so every theorem about a some result
speaks about runs the Python loop completes.
-/

namespace PictureTool

/-! ### Python string primitives -/

/-- Does the second list start with the first one (Python startswith on chars)? -/
def leadsWith : List Char → List Char → Bool
  | [], _ => true
  | _ :: _, [] => false
  | a :: as, b :: bs => a == b && leadsWith as bs

/-- Substring containment on char lists (Python operator in for strings). -/
def hasSub (pat : List Char) : List Char → Bool
  | [] => leadsWith pat []
  | c :: rest => leadsWith pat (c :: rest) || hasSub pat rest

/-- Python pat in s. -/
def strContains (s pat : String) : Bool := hasSub pat.data s.data

/-- Python s.startswith(pat). -/
def strStarts (s pat : String) : Bool := leadsWith pat.data s.data

/-- Drop leading whitespace from a char list. -/
def dropLeadWS : List Char → List Char
  | [] => []
  | c :: rest => if c.isWhitespace then dropLeadWS rest else c :: rest

/-- Python s.strip(): remove leading and trailing whitespace. -/
def pyStrip (s : String) : String :=
  String.mk ((dropLeadWS ((dropLeadWS s.data).reverse)).reverse)

/-- Fuel-based splitter on a separator char list (Python s.split(sep) for a
non-empty sep).  The fuel only needs to exceed the length of the input. -/
def splitLAux (sep : List Char) : Nat → List Char → List (List Char)
  | 0, s => [s]
  | _ + 1, [] => [[]]
  | fuel + 1, c :: rest =>
    if leadsWith sep (c :: rest) && !sep.isEmpty then
      [] :: splitLAux sep fuel (List.drop sep.length (c :: rest))
    else
      match splitLAux sep fuel rest with
      | [] => [[c]]
      | g :: gs => (c :: g) :: gs

/-- Python s.split(sep). -/
def pySplit (s sep : String) : List String :=
  (splitLAux sep.data (s.data.length + 1) s.data).map String.mk

/-- Python sep.join(parts). -/
def strJoin (sep : String) : List String → String
  | [] => ""
  | [s] => s
  | s :: rest => s ++ sep ++ strJoin sep rest

/-- Python s.isascii(). -/
def isAsciiStr (s : String) : Bool := s.data.all (fun c => c.toNat < 128)

/-- Source strip_link: link.strip().split("?")[0]. -/
def strip_link (link : String) : String := (pySplit (pyStrip link) "?").headD ""

/-! ### File-system model and smart_move -/

/-- A path as pathlib uses it in smart_move: a parent directory, a stem and an
extension.  target.with_stem only replaces the stem. -/
structure PPath where
  dir : String
  stem : String
  extn : String
deriving DecidableEq, Repr

/-- A file system: a finite association of paths to file contents.  Contents
are abstracted as natural numbers; smart_move only ever compares their hashes
under a hash function that is kept as an explicit parameter. -/
abbrev FS := List (PPath × Nat)

/-- Content stored at a path, if the path exists. -/
def lookupFS : FS → PPath → Option Nat
  | [], _ => none
  | (q, c) :: rest, p => if q = p then some c else lookupFS rest p

/-- Remove a path from the file system. -/
def eraseFS : FS → PPath → FS
  | [], _ => []
  | (q, c) :: rest, p => if q = p then eraseFS rest p else (q, c) :: eraseFS rest p

/-- Path.rename: the content leaves the source path and appears at the target
path.  smart_move only calls it when the target does not exist. -/
def renameFS (fs : FS) (source target : PPath) (c : Nat) : FS :=
  (target, c) :: eraseFS fs source

/-- Outcome of smart_move: either the source was moved to the returned path, or
the move was skipped because the hashes matched. -/
inductive MoveResult where
  | moved (target : PPath)
  | skipped
deriving DecidableEq, Repr

/-- The k-th name tried by smart_move: the original target, then the stems
orig_stem_1, orig_stem_2, and so on, in the original directory and with the
original extension. -/
def suffixName (target : PPath) : Nat → PPath
  | 0 => target
  | k + 1 => { target with stem := target.stem ++ "_" ++ toString (k + 1) }

/-- The while loop of smart_move (source lines 80 to 92): while the current
target exists, compare hashes; on a match stop without moving, otherwise move to
the next suffixed name; once the name is free, rename the source onto it.
Fuel models the unbounded while loop; none means the fuel ran out. -/
def smartMoveLoop (h : Nat → Nat) (fs : FS) (srcC : Nat) (source : PPath)
    (origStem : String) (tempHash : Nat) :
    Nat → PPath → Nat → Option (MoveResult × FS)
  | 0, _, _ => none
  | fuel + 1, target, i =>
    match lookupFS fs target with
    | none => some (MoveResult.moved target, renameFS fs source target srcC)
    | some c =>
      if h c = tempHash then some (MoveResult.skipped, fs)
      else
        smartMoveLoop h fs srcC source origStem tempHash fuel
          { target with stem := origStem ++ "_" ++ toString i } (i + 1)

/-- Source smart_move (lines 70 to 93): immediate rename when the target is
free, otherwise the suffixing loop.  A missing source is a raised exception in
Python and is none here.  The two exiftool invocations that follow a successful
rename only rewrite metadata of the already placed file and abort the run on
failure; they are modelled at the call sites in the pipeline. -/
def smart_move (h : Nat → Nat) (fuel : Nat) (fs : FS) (source target : PPath) :
    Option (MoveResult × FS) :=
  match lookupFS fs source with
  | none => none
  | some srcC =>
    match lookupFS fs target with
    | none => some (MoveResult.moved target, renameFS fs source target srcC)
    | some _ => smartMoveLoop h fs srcC source target.stem (h srcC) fuel target 1

/-- The per-file loop of move_pixiv (source lines 345 to 347): every file of the
source subfolder is individually placed into the target subfolder under its own
name via smart_move. -/
def move_pixiv_files (h : Nat → Nat) (fuel : Nat) (fs : FS)
    (srcDir targetDir : String) : Option FS :=
  (fs.filter (fun e => e.1.dir = srcDir)).foldlM
    (fun acc e =>
      match smart_move h fuel acc e.1 ⟨targetDir, e.1.stem, e.1.extn⟩ with
      | none => none
      | some (_, fs') => some fs')
    fs

/-! ### Author-mapping store -/

/-- Persistent author-mapping state.  The mapping field models the JSON file
contents (the in-memory cache is reloaded from the file on every access, so the
two never diverge); writes counts write_text calls on the mapping file and
prompts counts interactive prompts issued. -/
structure MapState where
  mapping : List (String × String)
  writes : Nat
  prompts : Nat
deriving DecidableEq, Repr

/-- Python dict get on the flat JSON object. -/
def lookupStr : List (String × String) → String → Option String
  | [], _ => none
  | (k, v) :: rest, key => if k = key then some v else lookupStr rest key

/-- Python dict assignment on the flat JSON object: replace or append. -/
def setStr : List (String × String) → String → String → List (String × String)
  | [], k, v => [(k, v)]
  | (k', v') :: rest, k, v =>
    if k' = k then (k, v) :: rest else (k', v') :: setStr rest k v

/-- Source get_or_prompt_username_mapping (lines 59 to 67): return an existing
mapping without prompting; otherwise prompt, strip the reply, fall back to the
recommended name on an empty reply, and persist the result write-through. -/
def get_or_prompt (st : MapState) (original recommended userInput : String) :
    String × MapState :=
  match lookupStr st.mapping original with
  | some v => (v, st)
  | none =>
    let mapped := pyStrip userInput
    let ret := if mapped.length > 0 then mapped else recommended
    (ret, ⟨setStr st.mapping original ret, st.writes + 1, st.prompts + 1⟩)

/-! ### Link classification (download command, lines 172 to 192) -/

/-- Match a single regex any-char (a dot outside a character class, without
DOTALL: any character except a newline). -/
def anyCh : List Char → Option (List Char)
  | [] => none
  | c :: rest => if c = '\n' then none else some rest

/-- Match a literal char sequence. -/
def litCh : List Char → List Char → Option (List Char)
  | [], s => some s
  | _ :: _, [] => none
  | p :: ps, c :: rest => if c = p then litCh ps rest else none

/-- Faithful translation of
re.fullmatch on the raw pattern https://cdn DOT BACKSLASH-DOT artstation DOT
com/p/assets/images/images DOT-STAR, where DOT is the regex any-char: the
literal https://cdn, one any-char, a literal dot, the literal artstation, one
any-char (the unescaped dot of .com), the literal com/p/assets/images/images,
then any-chars to the end of the string. -/
def direct_fullmatch (s : String) : Bool :=
  match litCh "https://cdn".data s.data with
  | none => false
  | some r1 =>
    match anyCh r1 with
    | none => false
    | some r2 =>
      match litCh ".artstation".data r2 with
      | none => false
      | some r3 =>
        match anyCh r3 with
        | none => false
        | some r4 =>
          match litCh "com/p/assets/images/images".data r4 with
          | none => false
          | some r5 => r5.all (fun c => c != '\n')

/-- Match the literal artstation.com/artwork/ here, followed by one or more
any-chars up to the end (the DOT-PLUS tail of the indirect pattern). -/
def artworkTail (s : List Char) : Bool :=
  match litCh "artstation.com/artwork/".data s with
  | some r => !r.isEmpty && r.all (fun c => c != '\n')
  | none => false

/-- Scan for the artwork literal at each position, the skipped characters being
any-chars (the lazy DOT-STAR of the indirect pattern). -/
def indirectScan : List Char → Bool
  | [] => false
  | c :: rest => artworkTail (c :: rest) || (c != '\n' && indirectScan rest)

/-- Faithful translation of re.fullmatch on the raw pattern
https:// DOT-STAR-LAZY artstation BACKSLASH-DOT com/artwork/ DOT-PLUS. -/
def indirect_fullmatch (s : String) : Bool :=
  match litCh "https://".data s.data with
  | some r => indirectScan r
  | none => false

/-- Source lines 172 to 176: split the links file on newlines, strip each link,
keep the non-empty results. -/
def allLinks (content : String) : List String :=
  (pySplit content "\n").filterMap (fun l =>
    let s := strip_link l
    if s.length > 0 then some s else none)

/-- Source lines 178 to 182. -/
def directLinks (content : String) : List String :=
  (allLinks content).filter (fun l => direct_fullmatch l)

/-- Source lines 183 to 187. -/
def indirectLinks (content : String) : List String :=
  (allLinks content).filter (fun l => indirect_fullmatch l)

/-- Source lines 188 to 192: links that appear in neither of the two lists. -/
def unknownLinks (content : String) : List String :=
  (allLinks content).filter (fun l =>
    !(directLinks content).contains l && !(indirectLinks content).contains l)

/-! ### Selection step and destination choice (download command) -/

/-- Source lines 220 to 237: keep the resolved links whose stripped form occurs
among the indirect page links; only when more than one link was resolved and
none matched is the interactive checkbox consulted.  Returns the selection and
whether the prompt was shown. -/
def links_to_download_sel (resolved indirect promptResult : List String) :
    List String × Bool :=
  let td := resolved.filter (fun l => indirect.contains (strip_link l))
  if resolved.length > 1 ∧ td.length = 0 then (promptResult, true) else (td, false)

/-- Result of the destination-subfolder choice of the download command. -/
structure DestChoice where
  subfolder : String
  folders : List String
  mapState : MapState
  usedMappingPath : Bool
deriving DecidableEq, Repr

/-- Source lines 239 to 252: the naive existence probe concatenates username and
the artstation suffix with no separator; only when that path is absent does the
mapping lookup/prompt run, and the created folder joins author and suffix with
an underscore (makedirs with exist_ok). -/
def pick_destination (folders : List String) (ms : MapState)
    (username pfx userInput : String) : DestChoice :=
  let naive := username ++ pfx
  if folders.contains naive then ⟨naive, folders, ms, false⟩
  else
    let (author, ms') := get_or_prompt ms username username userInput
    let d := author ++ "_" ++ pfx
    ⟨d, if folders.contains d then folders else d :: folders, ms', true⟩

/-! ### move_pixiv target-folder choice (lines 320 to 343) -/

/-- Last separator-delimited segment of the source folder name (parts[-1]). -/
def pixivIdOf (srcName sep : String) : String :=
  (pySplit srcName sep).getLastD ""

/-- Everything before the id, rejoined with the separator
(SEPARATOR.join(parts[:-1])). -/
def pixivNameOf (srcName sep : String) : String :=
  strJoin sep (pySplit srcName sep).dropLast

/-- The recommended display name: the author name itself when it is ASCII,
otherwise its romanisation (pykakasi is the supplied romanize function). -/
def recommendedOf (romanize : String → String) (srcName sep : String) : String :=
  let name := pixivNameOf srcName sep
  if isAsciiStr name then name else romanize name

/-- Source lines 320 to 343: choose the move target for one source subfolder.
The first destination subfolder whose stem contains the substring id followed by
the parsed id is reused as-is (no prompt); otherwise the author name is resolved
through the mapping store and a fresh folder name author_id<id>_<postfix> is
formed. -/
def movePixivTarget (romanize : String → String) (st : MapState)
    (destStems : List String) (srcName sep pfx userInput : String) :
    String × MapState :=
  let pixivId := pixivIdOf srcName sep
  match destStems.find? (fun s => strContains s ("id" ++ pixivId)) with
  | some t => (t, st)
  | none =>
    let (author, st') :=
      get_or_prompt st (pixivNameOf srcName sep)
        (recommendedOf romanize srcName sep) userInput
    (author ++ "_id" ++ pixivId ++ "_" ++ pfx, st')

/-! ### Download pipeline (download command, lines 197 to 274) -/

/-- External collaborators of the download command.  resolveJson is the
gallery-dl -j call combined with the jsonpath extraction of username and tags
(an empty username means the key was absent); resolveG is the raw stdout of
gallery-dl -g; both are Except.error when the subprocess exits non-zero, which
check_output surfaces as a raised exception.  promptSelect is the inquirer
checkbox, promptName the input() of the mapping prompt, filenameOf the
urlparse/basename/stem-extension split of a URL, wget the transfer (the
downloaded bytes abstracted to a content value), exiftool the two metadata
calls after a successful rename (check_call, raising on failure). -/
structure Ext where
  resolveJson : String → Except Unit (String × List String)
  resolveG : String → Except Unit String
  promptSelect : String → List String → List String
  promptName : String → String
  filenameOf : String → String × String
  wget : String → Except Unit Nat
  exiftool : PPath → List String → Except Unit Unit

/-- Mutable state threaded through the download loop: the author-mapping store,
the set of existing destination subfolders, the destination file system, a
counter making each TemporaryDirectory name fresh, and the indirect links whose
download loop ran to completion with a non-empty selection. -/
structure LoopSt where
  mapState : MapState
  folders : List String
  fs : FS
  tmpCount : Nat
  downloaded : List String
deriving DecidableEq, Repr

/-- Source lines 257 to 271: download one selected URL into a fresh temporary
directory, place it with smart_move, and drop the temporary directory.  Any
subprocess failure (wget, exiftool) raises and is Except.error. -/
def processDownloadLink (h : Nat → Nat) (ext : Ext) (tags : List String)
    (destSub : String) (st : LoopSt) (url : String) : Except Unit LoopSt := do
  let (stem, extn) := ext.filenameOf url
  let tmpdir := "tmp" ++ toString st.tmpCount
  let tempPath : PPath := ⟨tmpdir, stem, extn⟩
  let finalPath : PPath := ⟨destSub, stem, extn⟩
  let content ← ext.wget url
  let fs1 : FS := (tempPath, content) :: st.fs
  match smart_move h (fs1.length + 2) fs1 tempPath finalPath with
  | none => Except.error ()
  | some (res, fs2) =>
    let fs3 := fs2.filter (fun e => e.1.dir != tmpdir)
    match res with
    | MoveResult.moved tgt => do
      ext.exiftool tgt tags
      pure { st with fs := fs3, tmpCount := st.tmpCount + 1 }
    | MoveResult.skipped =>
      pure { st with fs := fs3, tmpCount := st.tmpCount + 1 }

/-- Source lines 197 to 271: process one indirect link.  A missing username is
a logged per-link skip; a failing gallery-dl call raises out of the loop.  The
quality filter drops blank lines and lines starting with the pipe marker. -/
def processIndirectLink (h : Nat → Nat) (ext : Ext) (indirect : List String)
    (st : LoopSt) (link : String) : Except Unit LoopSt := do
  let (username, tags) ← ext.resolveJson link
  if username.length = 0 then
    pure st
  else do
    let raw ← ext.resolveG link
    let resolved := (pySplit raw "\n").filterMap (fun l =>
      let s := pyStrip l
      if s.length > 0 ∧ ¬ strStarts s "|" then some s else none)
    let toDownload :=
      (links_to_download_sel resolved indirect (ext.promptSelect link resolved)).1
    if toDownload.length > 0 then do
      let dc := pick_destination st.folders st.mapState username "artstation"
        (ext.promptName username)
      let st1 : LoopSt := { st with mapState := dc.mapState, folders := dc.folders }
      let st2 ← toDownload.foldlM (processDownloadLink h ext tags dc.subfolder) st1
      pure { st2 with downloaded := st2.downloaded ++ [link] }
    else
      pure st

/-- Source lines 170 to 274 (the capability probes at the top of the command
only log): classify the links file, run the per-link loop over the indirect
links, and finally rewrite the links file with the unknown links joined by
newlines.  The direct links are classified but never downloaded or rewritten.
The result is the rewritten file content and the final state, or Except.error
when an unhandled subprocess exception aborted the run. -/
def download_artstation_model (h : Nat → Nat) (ext : Ext) (st0 : LoopSt)
    (content : String) : Except Unit (String × LoopSt) := do
  let indirect := indirectLinks content
  let st ← indirect.foldlM (processIndirectLink h ext indirect) st0
  pure (strJoin "\n" (unknownLinks content), st)

/-! ### Concrete instances used by witnesses and counterexamples -/

deriving instance DecidableEq for Except

/-- The empty run state: empty mapping store, no destination folders, empty
file system. -/
def stEmpty : LoopSt := ⟨⟨[], 0, 0⟩, [], [], 0, []⟩

/-- Externals for runs that never reach any external call besides the failing
ones: every subprocess fails, every prompt returns nothing. -/
def extFail : Ext :=
  ⟨fun _ => Except.error (), fun _ => Except.error (), fun _ _ => [],
   fun _ => "", fun _ => ("f", "png"), fun _ => Except.error (),
   fun _ _ => Except.error ()⟩

/-- Externals whose metadata resolution always succeeds but yields no username:
every indirect link becomes a logged per-link skip. -/
def extC2 : Ext :=
  ⟨fun _ => Except.ok ("", []), fun _ => Except.ok "", fun _ _ => [],
   fun _ => "", fun _ => ("f", "png"), fun _ => Except.error (),
   fun _ _ => Except.ok ()⟩

/-- Externals whose resolver exits non-zero on the first artwork link and
succeeds on every other one. -/
def extC6 : Ext :=
  ⟨fun l => if l = "https://www.artstation.com/artwork/a" then Except.error ()
            else Except.ok ("", []),
   fun _ => Except.ok "", fun _ _ => [], fun _ => "", fun _ => ("f", "png"),
   fun _ => Except.error (), fun _ _ => Except.ok ()⟩

/-! ### Claim C7 -/

/-- Claim C7: when a mapping for the key is already stored, two successive calls
of the resolve-or-prompt routine both return the stored value and leave the
store state (mapping contents, write counter, prompt counter) untouched: no
prompt is issued and no write to the mapping file happens. -/
theorem C7_idempotent_mapping (st : MapState) (k r v i1 i2 : String)
    (hlk : lookupStr st.mapping k = some v) :
    get_or_prompt st k r i1 = (v, st) ∧
    get_or_prompt (get_or_prompt st k r i1).2 k r i2 = (v, st) := by
  have h1 : get_or_prompt st k r i1 = (v, st) := by
    simp only [get_or_prompt, hlk]
  exact ⟨h1, by rw [h1]; simp only [get_or_prompt, hlk]⟩

/-- Witness for C7 at a concrete store holding a mapping for the key. -/
theorem C7_witness :
    get_or_prompt ⟨[("k", "v")], 3, 2⟩ "k" "r" "i1" = ("v", ⟨[("k", "v")], 3, 2⟩) ∧
    get_or_prompt (get_or_prompt ⟨[("k", "v")], 3, 2⟩ "k" "r" "i1").2 "k" "r" "i2"
      = ("v", ⟨[("k", "v")], 3, 2⟩) :=
  C7_idempotent_mapping ⟨[("k", "v")], 3, 2⟩ "k" "r" "v" "i1" "i2" (by decide)

/-! ### Claim C4 -/

/-- Claim C4 counterexample: in the folder-relocation per-file loop, after a
hash match at the target name the source file is not discarded: the whole file
system is unchanged, so the source file is still present in the source
subfolder. -/
theorem C4_counterexample :
    move_pixiv_files (fun c => c) 4
      [(⟨"sub", "a", "png"⟩, 5), (⟨"dst", "a", "png"⟩, 5)] "sub" "dst"
      = some [(⟨"sub", "a", "png"⟩, 5), (⟨"dst", "a", "png"⟩, 5)] ∧
    lookupFS [(⟨"sub", "a", "png"⟩, 5), (⟨"dst", "a", "png"⟩, 5)] ⟨"sub", "a", "png"⟩
      = some 5 := by decide

/-- Claim C4 as amended: when the source hash equals the hash of the existing
file at the target name, smart_move returns without moving and the file system
is unchanged — in particular the source file is not removed, so in the
folder-relocation pipeline it remains in the source subfolder (in the download
pipeline the temporary-directory cleanup is what discards it). -/
theorem C4_hash_match_skips_and_keeps_source (h : Nat → Nat) (fuel : Nat)
    (fs : FS) (source target : PPath) (srcC tgtC : Nat)
    (hs : lookupFS fs source = some srcC) (ht : lookupFS fs target = some tgtC)
    (heq : h tgtC = h srcC) (hf : 0 < fuel) :
    smart_move h fuel fs source target = some (MoveResult.skipped, fs) := by
  cases fuel with
  | zero => omega
  | succ f => simp only [smart_move, hs, ht, smartMoveLoop, heq, if_true]

/-- Witness for the amended C4 at a concrete file system. -/
theorem C4_witness :
    smart_move (fun c => c) 1 [(⟨"s", "a", "p"⟩, 5), (⟨"d", "a", "p"⟩, 5)]
      ⟨"s", "a", "p"⟩ ⟨"d", "a", "p"⟩
      = some (MoveResult.skipped, [(⟨"s", "a", "p"⟩, 5), (⟨"d", "a", "p"⟩, 5)]) :=
  C4_hash_match_skips_and_keeps_source (fun c => c) 1 _ _ _ 5 5
    (by decide) (by decide) (by decide) (by decide)

/-! ### Claim C5 -/

/-- Claim C5 counterexample: a quality-filtered candidate list holding exactly
one URL whose stripped form does not occur among the original indirect page
links is not auto-selected: the selection is empty (and no prompt is shown), so
nothing is downloaded for that link. -/
theorem C5_counterexample :
    links_to_download_sel
      ["https://cdnb.artstation.com/p/assets/images/images/0/1.jpg"]
      ["https://www.artstation.com/artwork/abc"] ["PROMPT"]
      = ([], false) := by decide

/-- Claim C5 as amended: with exactly one quality-filtered candidate no
interactive prompt is ever shown, and the candidate is auto-selected if and
only if its stripped form matches one of the original indirect page links;
otherwise the selection is empty and nothing is downloaded for that link. -/
theorem C5_single_candidate_requires_page_match
    (resolved indirect promptResult : List String) (u : String)
    (hres : resolved = [u]) :
    links_to_download_sel resolved indirect promptResult
      = (if indirect.contains (strip_link u) then [u] else [], false) := by
  subst hres
  by_cases hc : strip_link u ∈ indirect <;>
    simp [links_to_download_sel, List.filter, hc]

/-- Witness for the amended C5: a single candidate that does match a page link
is auto-selected without a prompt. -/
theorem C5_witness :
    links_to_download_sel ["https://www.artstation.com/artwork/abc"]
      ["https://www.artstation.com/artwork/abc"] ["PROMPT"]
      = (if ["https://www.artstation.com/artwork/abc"].contains
            (strip_link "https://www.artstation.com/artwork/abc")
         then ["https://www.artstation.com/artwork/abc"] else [], false) :=
  C5_single_candidate_requires_page_match _ _ ["PROMPT"]
    "https://www.artstation.com/artwork/abc" rfl

/-! ### Claim C1 -/

/-- Replacing the stem of the k-th tried name with the next suffixed stem gives
the (k+1)-th tried name. -/
theorem suffixName_step (t : PPath) (j : Nat) :
    ({ suffixName t j with stem := t.stem ++ "_" ++ toString (j + 1) } : PPath)
      = suffixName t (j + 1) := by
  cases j <;> simp [suffixName]

/-- If the smart_move loop reports a move, the reported target was free
beforehand and the resulting file system is exactly the rename of the source
onto it. -/
theorem smartMoveLoop_moved (h : Nat → Nat) (fs : FS) (srcC : Nat)
    (source : PPath) (origStem : String) (tempHash : Nat) :
    ∀ (fuel : Nat) (tgt : PPath) (i : Nat) (t : PPath) (fs' : FS),
      smartMoveLoop h fs srcC source origStem tempHash fuel tgt i
        = some (MoveResult.moved t, fs') →
      lookupFS fs t = none ∧ fs' = renameFS fs source t srcC := by
  intro fuel
  induction fuel with
  | zero => intro tgt i t fs' hh; simp [smartMoveLoop] at hh
  | succ f ih =>
    intro tgt i t fs' hh
    simp only [smartMoveLoop] at hh
    split at hh
    next hlk =>
      simp only [Option.some.injEq, Prod.mk.injEq, MoveResult.moved.injEq] at hh
      obtain ⟨h1, h2⟩ := hh
      subst h1
      exact ⟨hlk, h2.symm⟩
    next c hlk =>
      by_cases hq : h c = tempHash
      · rw [if_pos hq] at hh; simp at hh
      · rw [if_neg hq] at hh; exact ih _ _ _ _ hh

/-- With enough fuel, starting the smart_move loop at try j while every try
from j up to (but excluding) k is occupied by content of a different hash, the
loop stops exactly at try k: a rename onto it when it is free, a hash-match
skip when it holds content of equal hash. -/
theorem smartMoveLoop_reaches (h : Nat → Nat) (fs : FS) (srcC : Nat)
    (source target : PPath) (k : Nat)
    (hstop : lookupFS fs (suffixName target k) = none ∨
      ∃ c, lookupFS fs (suffixName target k) = some c ∧ h c = h srcC) :
    ∀ (fuel j : Nat), j ≤ k → k - j < fuel →
    (∀ m, j ≤ m → m < k →
      ∃ c, lookupFS fs (suffixName target m) = some c ∧ h c ≠ h srcC) →
    smartMoveLoop h fs srcC source target.stem (h srcC) fuel
        (suffixName target j) (j + 1)
      = if lookupFS fs (suffixName target k) = none
        then some (MoveResult.moved (suffixName target k),
               renameFS fs source (suffixName target k) srcC)
        else some (MoveResult.skipped, fs) := by
  intro fuel
  induction fuel with
  | zero => intro j hj hf hocc; omega
  | succ f ih =>
    intro j hj hf hocc
    rcases Nat.lt_or_ge j k with hjk | hjk
    · obtain ⟨c, hc, hne⟩ := hocc j le_rfl hjk
      simp only [smartMoveLoop, hc, if_neg hne]
      rw [suffixName_step]
      exact ih (j + 1) hjk (by omega) (fun m hm1 hm2 => hocc m (by omega) hm2)
    · have hjeq : j = k := le_antisymm hj hjk
      subst hjeq
      rcases hstop with hfree | ⟨c, hc, hceq⟩
      · simp [smartMoveLoop, hfree]
      · simp [smartMoveLoop, hc, hceq]

/-- Claim C1: smart_move tries the original target name and then the
monotonically suffixed names stem_1, stem_2, one per collision.  If the first
try whose content hash is not different holds content of equal hash, nothing is
created and the file system is unchanged; if that first try is a free name, the
source is renamed onto it; and whenever smart_move reports a move, the reported
name was free beforehand, so a pre-existing file is never overwritten. -/
theorem C1_smart_move_collision_policy (h : Nat → Nat) (fs : FS)
    (source target : PPath) (srcC : Nat) (k fuel : Nat)
    (hsrc : lookupFS fs source = some srcC)
    (hfuel : k < fuel)
    (hocc : ∀ m, m < k →
      ∃ c, lookupFS fs (suffixName target m) = some c ∧ h c ≠ h srcC) :
    ((∃ c, lookupFS fs (suffixName target k) = some c ∧ h c = h srcC) →
        smart_move h fuel fs source target = some (MoveResult.skipped, fs)) ∧
    (lookupFS fs (suffixName target k) = none →
        smart_move h fuel fs source target
          = some (MoveResult.moved (suffixName target k),
              renameFS fs source (suffixName target k) srcC)) ∧
    (∀ (fuel' : Nat) (t : PPath) (fs' : FS),
        smart_move h fuel' fs source target = some (MoveResult.moved t, fs') →
        lookupFS fs t = none ∧ fs' = renameFS fs source t srcC) := by
  refine ⟨?_, ?_, ?_⟩
  · rintro ⟨c, hc, hceq⟩
    have hex : ∃ c0, lookupFS fs target = some c0 := by
      cases k with
      | zero => exact ⟨c, by simpa [suffixName] using hc⟩
      | succ k' =>
        obtain ⟨c0, hc0, _⟩ := hocc 0 (Nat.succ_pos k')
        exact ⟨c0, by simpa [suffixName] using hc0⟩
    obtain ⟨c0, hc0⟩ := hex
    have hr := smartMoveLoop_reaches h fs srcC source target k
      (Or.inr ⟨c, hc, hceq⟩) fuel 0 (Nat.zero_le k) (by omega)
      (fun m _ hm2 => hocc m hm2)
    rw [if_neg (by rw [hc]; simp)] at hr
    simp only [smart_move, hsrc, hc0]
    simpa [suffixName] using hr
  · intro hfree
    cases k with
    | zero =>
      have hfree0 : lookupFS fs target = none := by simpa [suffixName] using hfree
      simp [smart_move, hsrc, hfree0, suffixName]
    | succ k' =>
      obtain ⟨c0, hc0', _⟩ := hocc 0 (Nat.succ_pos k')
      have hc0 : lookupFS fs target = some c0 := by simpa [suffixName] using hc0'
      have hr := smartMoveLoop_reaches h fs srcC source target (k' + 1)
        (Or.inl hfree) fuel 0 (Nat.zero_le _) (by omega)
        (fun m _ hm2 => hocc m hm2)
      rw [if_pos hfree] at hr
      simp only [smart_move, hsrc, hc0]
      simpa [suffixName] using hr
  · intro fuel' t fs' hmv
    simp only [smart_move, hsrc] at hmv
    cases hlt : lookupFS fs target with
    | none =>
      rw [hlt] at hmv
      simp only [Option.some.injEq, Prod.mk.injEq, MoveResult.moved.injEq] at hmv
      obtain ⟨h1, h2⟩ := hmv
      subst h1
      exact ⟨hlt, h2.symm⟩
    | some c =>
      rw [hlt] at hmv
      exact smartMoveLoop_moved h fs srcC source target.stem (h srcC)
        fuel' target 1 t fs' hmv

/-- Witness for C1: a file system where the target and its first suffixed name
hold different content; the move lands on the second suffixed name and the two
existing files are untouched. -/
theorem C1_witness :
    smart_move (fun c => c) 3
      [(⟨"t", "s", "png"⟩, 10), (⟨"d", "f", "png"⟩, 1), (⟨"d", "f_1", "png"⟩, 2)]
      ⟨"t", "s", "png"⟩ ⟨"d", "f", "png"⟩
      = some (MoveResult.moved ⟨"d", "f_2", "png"⟩,
          [(⟨"d", "f_2", "png"⟩, 10), (⟨"d", "f", "png"⟩, 1),
            (⟨"d", "f_1", "png"⟩, 2)]) := by
  have hr := (C1_smart_move_collision_policy (fun c => c)
    [(⟨"t", "s", "png"⟩, 10), (⟨"d", "f", "png"⟩, 1), (⟨"d", "f_1", "png"⟩, 2)]
    ⟨"t", "s", "png"⟩ ⟨"d", "f", "png"⟩ 10 2 3 (by decide) (by decide)
    (fun m hm => by
      match m, hm with
      | 0, _ => exact ⟨1, by decide, by decide⟩
      | 1, _ => exact ⟨2, by decide, by decide⟩)).2.1 (by decide)
  rw [hr]
  decide

/-! ### Claim C3 -/

/-- Claim C3 counterexample: the two URL patterns overlap, so one link can be
classified as a direct asset and as an indirect page at the same time; the
three category lists then do not partition the input.  The any-char tail of the
direct pattern may itself contain an artwork-page occurrence. -/
theorem C3_counterexample :
    direct_fullmatch
        "https://cdn1.artstation.com/p/assets/images/imagesartstation.com/artwork/z"
      = true ∧
    indirect_fullmatch
        "https://cdn1.artstation.com/p/assets/images/imagesartstation.com/artwork/z"
      = true ∧
    directLinks
        "https://cdn1.artstation.com/p/assets/images/imagesartstation.com/artwork/z"
      = ["https://cdn1.artstation.com/p/assets/images/imagesartstation.com/artwork/z"] ∧
    indirectLinks
        "https://cdn1.artstation.com/p/assets/images/imagesartstation.com/artwork/z"
      = ["https://cdn1.artstation.com/p/assets/images/imagesartstation.com/artwork/z"] ∧
    unknownLinks
        "https://cdn1.artstation.com/p/assets/images/imagesartstation.com/artwork/z"
      = [] := by decide

/-- Claim C3 as amended: every non-empty stripped link lands in at least one of
the three category lists, and the unknown list is exactly the links matching
neither pattern, hence disjoint from the other two; but the direct and indirect
lists may overlap, so the three lists need not partition the input. -/
theorem C3_classification_coverage (content l : String)
    (hl : l ∈ allLinks content) :
    (l ∈ directLinks content ∨ l ∈ indirectLinks content ∨
      l ∈ unknownLinks content) ∧
    (l ∈ unknownLinks content →
      l ∉ directLinks content ∧ l ∉ indirectLinks content) := by
  constructor
  · by_cases hd : direct_fullmatch l = true
    · exact Or.inl (List.mem_filter.mpr ⟨hl, hd⟩)
    by_cases hi : indirect_fullmatch l = true
    · exact Or.inr (Or.inl (List.mem_filter.mpr ⟨hl, hi⟩))
    have hnd : l ∉ directLinks content := fun hm => hd (List.mem_filter.mp hm).2
    have hni : l ∉ indirectLinks content := fun hm => hi (List.mem_filter.mp hm).2
    refine Or.inr (Or.inr (List.mem_filter.mpr ⟨hl, ?_⟩))
    have hcd : (directLinks content).contains l = false := by simp [hnd]
    have hci : (indirectLinks content).contains l = false := by simp [hni]
    rw [hcd, hci]
    rfl
  · intro hu
    have hp := (List.mem_filter.mp hu).2
    rw [Bool.and_eq_true, Bool.not_eq_true', Bool.not_eq_true'] at hp
    simp only [List.contains, Bool.eq_false_iff, ne_eq, List.elem_iff] at hp
    exact hp

/-- Witness for the amended C3 on a one-line links file holding an unknown
link. -/
theorem C3_witness :
    ("http://e" ∈ directLinks "http://e" ∨ "http://e" ∈ indirectLinks "http://e" ∨
      "http://e" ∈ unknownLinks "http://e") ∧
    ("http://e" ∈ unknownLinks "http://e" →
      "http://e" ∉ directLinks "http://e" ∧ "http://e" ∉ indirectLinks "http://e") :=
  C3_classification_coverage "http://e" "http://e" (by decide)

/-! ### Claim C8 -/

/-- Claim C8 counterexample: with source subfolder sato_taro_12345 the parsed id
is 12345 and the reuse probe looks for the substring id12345; the destination
folder sato_12345_pixiv does not contain it, so the existing folder is not
reused: the author-mapping prompt fires (prompt counter 1) and a fresh folder
name sato_taro_id12345_pixiv is formed instead. -/
theorem C8_counterexample :
    movePixivTarget (fun s => s) ⟨[], 0, 0⟩ ["sato_12345_pixiv"]
        "sato_taro_12345" "_" "pixiv" ""
      = ("sato_taro_id12345_pixiv", ⟨[("sato_taro", "sato_taro")], 1, 1⟩) ∧
    strContains "sato_12345_pixiv" "id12345" = false := by decide

/-- Claim C8 as amended: when the destination already contains a subfolder
whose name contains the substring id followed by the parsed id (for the
scenario, sato_id12345_pixiv), that folder is reused as the move target and the
mapping state is untouched: no prompt is issued. -/
theorem C8_existing_id_short_circuit (romanize : String → String)
    (st : MapState) (destStems : List String) (srcName sep pfx input t : String)
    (hfind : destStems.find?
        (fun s => strContains s ("id" ++ pixivIdOf srcName sep)) = some t) :
    movePixivTarget romanize st destStems srcName sep pfx input = (t, st) := by
  simp only [movePixivTarget, hfind]

/-- Witness for the amended C8: the scenario with the id-bearing folder name. -/
theorem C8_witness :
    movePixivTarget (fun s => s) ⟨[], 0, 0⟩ ["sato_id12345_pixiv"]
        "sato_taro_12345" "_" "pixiv" ""
      = ("sato_id12345_pixiv", ⟨[], 0, 0⟩) :=
  C8_existing_id_short_circuit (fun s => s) ⟨[], 0, 0⟩ ["sato_id12345_pixiv"]
    "sato_taro_12345" "_" "pixiv" "" "sato_id12345_pixiv" (by decide)

/-! ### Claim C10 -/

/-- Claim C10: an existing destination subfolder is reused exactly when its
name contains the substring id followed by the parsed id — substring
containment, not id equality — and the first such folder in scan order is
taken, with the mapping state left untouched; when no folder matches, the
target is freshly constructed from the resolved author name. -/
theorem C10_reuse_first_substring_match (romanize : String → String)
    (st : MapState) (destStems : List String) (srcName sep pfx input : String) :
    (∀ t, destStems.find?
        (fun s => strContains s ("id" ++ pixivIdOf srcName sep)) = some t →
      movePixivTarget romanize st destStems srcName sep pfx input = (t, st)) ∧
    (destStems.find?
        (fun s => strContains s ("id" ++ pixivIdOf srcName sep)) = none →
      movePixivTarget romanize st destStems srcName sep pfx input
        = ((get_or_prompt st (pixivNameOf srcName sep)
              (recommendedOf romanize srcName sep) input).1
            ++ "_id" ++ pixivIdOf srcName sep ++ "_" ++ pfx,
           (get_or_prompt st (pixivNameOf srcName sep)
              (recommendedOf romanize srcName sep) input).2)) ∧
    ((∃ t ∈ destStems, strContains t ("id" ++ pixivIdOf srcName sep) = true) →
      (movePixivTarget romanize st destStems srcName sep pfx input).2 = st) := by
  refine ⟨?_, ?_, ?_⟩
  · intro t hf
    simp only [movePixivTarget, hf]
  · intro hf
    simp only [movePixivTarget, hf]
  · intro hex
    have hs : (destStems.find?
        (fun s => strContains s ("id" ++ pixivIdOf srcName sep))).isSome :=
      List.find?_isSome.mpr hex
    obtain ⟨t, ht⟩ := Option.isSome_iff_exists.mp hs
    simp only [movePixivTarget, ht]

/-- Witness for C10, exhibiting the proper-prefix behaviour the claim points
out: parsed id 12, destination folder alice_id123_pixiv; id12 is a substring of
id123, so the folder with the different id 123 is reused. -/
theorem C10_witness :
    movePixivTarget (fun s => s) ⟨[], 0, 0⟩ ["alice_id123_pixiv"]
        "bob_12" "_" "pixiv" ""
      = ("alice_id123_pixiv", ⟨[], 0, 0⟩) :=
  (C10_reuse_first_substring_match (fun s => s) ⟨[], 0, 0⟩ ["alice_id123_pixiv"]
    "bob_12" "_" "pixiv" "").1 "alice_id123_pixiv" (by decide)

/-! ### Claim C9 -/

/-- Claim C9 counterexample: the bypass probe string username-postfix (no
separator) can coincide with a pipeline-created folder author_postfix: take
username sato_ mapped to author sato.  Then the probe finds the folder created
by a previous run and the mapping path does not run, refuting the claim that
the bypass never matches a pipeline-created folder. -/
theorem C9_counterexample :
    ("sato_" ++ "artstation" = "sato" ++ "_" ++ "artstation") ∧
    pick_destination ["sato" ++ "_" ++ "artstation"] ⟨[], 0, 0⟩
        "sato_" "artstation" "zzz"
      = ⟨"sato_artstation", ["sato_artstation"], ⟨[], 0, 0⟩, false⟩ := by decide

/-- Claim C9 as amended: the bypass probe concatenates username and postfix
with no separator while created folders are author-underscore-postfix; for any
destination consisting of pipeline-created folders, the probe misses and the
mapping lookup/prompt path runs, unless the username itself ends in the
separator with its mapped author being the username minus that separator. -/
theorem C9_bypass_check_mismatch (authors : List String) (ms : MapState)
    (username pfx input : String)
    (hne : ∀ a ∈ authors, username ≠ a ++ "_") :
    (pick_destination (authors.map (fun a => a ++ "_" ++ pfx)) ms
        username pfx input).usedMappingPath = true ∧
    (pick_destination (authors.map (fun a => a ++ "_" ++ pfx)) ms
        username pfx input).subfolder
      = (get_or_prompt ms username username input).1 ++ "_" ++ pfx := by
  have hmem : username ++ pfx ∉ authors.map (fun a => a ++ "_" ++ pfx) := by
    intro hm
    obtain ⟨a, ha, heq⟩ := List.mem_map.mp hm
    have hd := congrArg String.data heq
    rw [String.data_append, String.data_append, String.data_append] at hd
    have hcut : (a ++ "_").data = username.data := by
      rw [String.data_append]
      exact List.append_cancel_right hd
    exact hne a ha (String.ext hcut).symm
  have hnc : (authors.map (fun a => a ++ "_" ++ pfx)).contains (username ++ pfx)
      = false := by simp [hmem]
  constructor <;> simp only [pick_destination, hnc, Bool.false_eq_true,
    if_false]

/-- Witness for the amended C9: one pipeline-created folder sato_artstation;
for username sato the probe tests sato-artstation with no separator, misses,
and the mapping path runs. -/
theorem C9_witness :
    (pick_destination (["sato"].map (fun a => a ++ "_" ++ "artstation"))
        ⟨[], 0, 0⟩ "sato" "artstation" " ").usedMappingPath = true ∧
    (pick_destination (["sato"].map (fun a => a ++ "_" ++ "artstation"))
        ⟨[], 0, 0⟩ "sato" "artstation" " ").subfolder
      = (get_or_prompt ⟨[], 0, 0⟩ "sato" "sato" " ").1 ++ "_" ++ "artstation" :=
  C9_bypass_check_mismatch ["sato"] ⟨[], 0, 0⟩ "sato" "artstation" " "
    (by decide)

/-! ### Claim C2 -/

/-- Claim C2 counterexample: a links file with one artwork-page link and one
unknown link, against a resolver that yields no username for the page link, so
nothing is resolved or downloaded.  The run completes with zero downloads, yet
the rewritten file holds a single line — the unknown link — instead of the
N minus K equals two lines the claim requires: the classified-but-unresolved
artwork link is dropped. -/
theorem C2_counterexample :
    download_artstation_model (fun c => c) extC2 stEmpty
        "https://www.artstation.com/artwork/a\nhttps://example.com/x"
      = Except.ok ("https://example.com/x", stEmpty) ∧
    (allLinks "https://www.artstation.com/artwork/a\nhttps://example.com/x").length
      = 2 ∧
    stEmpty.downloaded.length = 0 ∧
    (pySplit "https://example.com/x" "\n").length = 1 := by decide

/-- Claim C2 as amended: a completed run rewrites the links file to exactly the
unknown links joined by newlines, whatever happened to the classified links:
successfully downloaded and unresolved indirect links are dropped alike, as are
the never-processed direct links. -/
theorem C2_file_rewrite_unknown_only (h : Nat → Nat) (ext : Ext) (st0 : LoopSt)
    (content : String) (out : String × LoopSt)
    (hok : download_artstation_model h ext st0 content = Except.ok out) :
    out.1 = strJoin "\n" (unknownLinks content) := by
  simp only [download_artstation_model, bind, Except.bind] at hok
  cases hf : List.foldlM (processIndirectLink h ext (indirectLinks content)) st0
      (indirectLinks content) with
  | error e => rw [hf] at hok; simp at hok
  | ok st =>
    rw [hf] at hok
    simp only [pure, Except.pure, Except.ok.injEq] at hok
    rw [← hok]

/-- Witness for the amended C2 on a links file with two unknown links. -/
theorem C2_witness :
    (("x\nhttp://u" : String), stEmpty).1 = strJoin "\n" (unknownLinks "x\nhttp://u") :=
  C2_file_rewrite_unknown_only (fun c => c) extFail stEmpty "x\nhttp://u"
    ("x\nhttp://u", stEmpty) (by decide)

/-! ### Claim C6 -/

/-- Claim C6 counterexample: two artwork-page links; the resolver exits
non-zero on the first and would succeed on the second, but the whole run
aborts with the raised error: the second link is never processed and the links
file is never rewritten, refuting the claim that a resolver failure is fatal
only for its own link. -/
theorem C6_counterexample :
    (indirectLinks
        "https://www.artstation.com/artwork/a\nhttps://www.artstation.com/artwork/b").length
      = 2 ∧
    extC6.resolveJson "https://www.artstation.com/artwork/b"
      = Except.ok ("", []) ∧
    download_artstation_model (fun c => c) extC6 stEmpty
        "https://www.artstation.com/artwork/a\nhttps://www.artstation.com/artwork/b"
      = Except.error () := by decide

/-- Claim C6 as amended: a non-zero exit of the resolver's metadata call on the
first indirect link is an uncaught exception that aborts the entire run; only
the missing-username case is a per-link skip. -/
theorem C6_resolver_failure_aborts_run (h : Nat → Nat) (ext : Ext)
    (st0 : LoopSt) (content link : String) (rest : List String)
    (hind : indirectLinks content = link :: rest)
    (herr : ext.resolveJson link = Except.error ()) :
    download_artstation_model h ext st0 content = Except.error () := by
  simp only [download_artstation_model, hind, List.foldlM, processIndirectLink,
    herr, bind, Except.bind]

/-- Witness for the amended C6: a single artwork link whose resolver call
fails. -/
theorem C6_witness :
    download_artstation_model (fun c => c) extFail stEmpty
      "https://www.artstation.com/artwork/a" = Except.error () :=
  C6_resolver_failure_aborts_run (fun c => c) extFail stEmpty
    "https://www.artstation.com/artwork/a" "https://www.artstation.com/artwork/a"
    [] (by decide) rfl
